import Mathlib

/-!
Verification development for the service-worker caching core
(`src/unnamed/part_000`). The worker intercepts requests, classifies them
with `getStrategyForRequest`, and answers through one of three strategy
executors (`cacheFirst`, `networkFirst`, `staleWhileRevalidate`) against a
versioned cache namespace; an activate handler sweeps stale namespaces and a
message handler bulk-precaches URL lists.

Modelling conventions:
 - A platform `Response` is an immutable snapshot (status, statusText,
   headers, body); `Response.ok` is the 2xx check of the platform.
 - The cache namespace is an association list from request key (URL) to
   response snapshot; `Cache.put` overwrites, `Cache.matchReq` looks up.
 - A network fetch outcome is `Except String Response`: `Except.ok r` for a
   promise resolving with `r` (of any status), `Except.error e` for a
   rejected fetch carrying message `e`.
 - Each executor is a pure function from (cache contents, fetch outcome,
   request key) to a `FetchResult`: the response handed to the caller
   (`none` models a promise resolving with `undefined`, which the host
   surfaces as a network failure), the cache contents afterwards, and
   whether the network was contacted.
-/

/-- Snapshot of a platform response: status, statusText, headers, body. -/
structure Response where
  status : Nat
  statusText : String
  headers : List (String × String)
  body : String
deriving DecidableEq, Repr

/-- The platform `response.ok` flag: status in the 2xx class. -/
def Response.ok (r : Response) : Bool :=
  decide (200 ≤ r.status ∧ r.status < 300)

/-- A cache namespace: request key to response snapshot. -/
abbrev Cache := List (String × Response)

/-- Platform `cache.match(request)`: the stored snapshot for a key, if any. -/
def Cache.matchReq (c : Cache) (key : String) : Option Response :=
  (c.find? (fun kv => kv.1 == key)).map (fun kv => kv.2)

/-- Platform `cache.put(request, response)`: overwrite the entry for a key. -/
def Cache.put (c : Cache) (key : String) (r : Response) : Cache :=
  (key, r) :: c.filter (fun kv => kv.1 != key)

-- Constants of the worker (source lines 10-31).

def CACHE_VERSION : String := "v1.0.0"

def CACHE_NAME : String := "ts-snippets-" ++ CACHE_VERSION

def CACHE_STRATEGIES_CACHE_FIRST : String := "cache-first"

def CACHE_STRATEGIES_NETWORK_FIRST : String := "network-first"

def CACHE_STRATEGIES_STALE_WHILE_REVALIDATE : String := "stale-while-revalidate"

def RESOURCE_STRATEGIES_html : String := CACHE_STRATEGIES_NETWORK_FIRST

def RESOURCE_STRATEGIES_styles : String := CACHE_STRATEGIES_STALE_WHILE_REVALIDATE

def RESOURCE_STRATEGIES_scripts : String := CACHE_STRATEGIES_STALE_WHILE_REVALIDATE

def RESOURCE_STRATEGIES_images : String := CACHE_STRATEGIES_CACHE_FIRST

/-- Result of one executor run: the response delivered to the caller
(`none` = the returned promise resolved with `undefined`), the cache
afterwards, and whether `fetch` was called. -/
structure FetchResult where
  response : Option Response
  cache : Cache
  networkCalled : Bool
deriving DecidableEq, Repr

/-- The synthetic offline response of `cacheFirst` (source lines 134-137):
status 503, no headers. -/
def offlinePlainResponse : Response :=
  { status := 503, statusText := "Service Unavailable", headers := [],
    body := "Offline - resource not available" }

/-- The synthetic offline response of `networkFirst` (source lines 162-166):
status 503 with an HTML content type. -/
def offlineHtmlResponse : Response :=
  { status := 503, statusText := "Service Unavailable",
    headers := [("Content-Type", "text/html")],
    body := "Offline - resource not available" }

/-- `cacheFirst` (source lines 116-139): serve the cached entry when present;
otherwise fetch, store the clone when the response is ok, and return it; on a
rejected fetch answer with the plain offline response. -/
def cacheFirst (cache : Cache) (net : Except String Response) (key : String) :
    FetchResult :=
  match cache.matchReq key with
  | some cached => ⟨some cached, cache, false⟩
  | none =>
    match net with
    | Except.ok r => ⟨some r, if r.ok then cache.put key r else cache, true⟩
    | Except.error _ => ⟨some offlinePlainResponse, cache, true⟩

/-- `networkFirst` (source lines 142-168): always fetch; store the clone when
ok and return the live response; on a rejected fetch fall back to the cached
entry, and failing that answer with the HTML offline response. -/
def networkFirst (cache : Cache) (net : Except String Response) (key : String) :
    FetchResult :=
  match net with
  | Except.ok r => ⟨some r, if r.ok then cache.put key r else cache, true⟩
  | Except.error _ =>
    match cache.matchReq key with
    | some cached => ⟨some cached, cache, true⟩
    | none => ⟨some offlineHtmlResponse, cache, true⟩

/-- `staleWhileRevalidate` (source lines 171-189): always start a background
fetch whose success with ok status overwrites the cache; answer with the
cached entry when present, else with the background fetch outcome. The catch
handler of the background fetch swallows a rejection, so with no cached entry
a failed fetch resolves the returned promise with `undefined` (here `none`). -/
def staleWhileRevalidate (cache : Cache) (net : Except String Response)
    (key : String) : FetchResult :=
  let newCache :=
    match net with
    | Except.ok r => if r.ok then cache.put key r else cache
    | Except.error _ => cache
  match cache.matchReq key with
  | some cached => ⟨some cached, newCache, true⟩
  | none =>
    match net with
    | Except.ok r => ⟨some r, newCache, true⟩
    | Except.error _ => ⟨none, newCache, true⟩

/-- JS `string.split` restricted to the separator character `.` used by the
worker: splits a character list at every dot, keeping empty pieces, never
returning an empty list (JS `"".split` gives `[""]`). -/
def splitDot : List Char → List (List Char)
  | [] => [[]]
  | c :: cs =>
    match splitDot cs with
    | [] => [[]]
    | piece :: rest =>
      if c = '.' then [] :: piece :: rest else (c :: piece) :: rest

/-- The `url.pathname.split('.').pop()` expression of the classifier
(source line 197): the last piece of the dot-split pathname. -/
def extOf (pathname : String) : String :=
  ⟨(splitDot pathname.data).getLastD []⟩

/-- JS `a.startsWith(b)` on character lists, used to build the substring
check below. -/
def headMatches : List Char → List Char → Bool
  | [], _ => true
  | _ :: _, [] => false
  | a :: as, b :: bs => a == b && headMatches as bs

/-- JS `hay.includes(needle)` on character lists: some suffix of `hay`
starts with `needle`. -/
def containsSeq (needle : List Char) : List Char → Bool
  | [] => headMatches needle []
  | c :: rest => headMatches needle (c :: rest) || containsSeq needle rest

/-- The `request.headers.get('accept')?.includes('text/html')` test of the
classifier (source line 200): `none` models an absent Accept header, for
which the optional chaining yields a falsy `undefined`. -/
def acceptIndicatesHtml : Option String → Bool
  | none => false
  | some accept => containsSeq "text/html".data accept.data

/-- `getStrategyForRequest` (source lines 195-221), as a function of the
Accept header value and the URL pathname: the ordered extension cascade
choosing one of the three strategy identifiers. -/
def getStrategyForRequest (accept : Option String) (pathname : String) :
    String :=
  let extension := extOf pathname
  if acceptIndicatesHtml accept = true ∨ extension = "html" then
    RESOURCE_STRATEGIES_html
  else if extension = "css" then
    RESOURCE_STRATEGIES_styles
  else if extension = "js" then
    RESOURCE_STRATEGIES_scripts
  else if extension ∈ ["jpg", "jpeg", "png", "gif", "webp", "svg"] then
    RESOURCE_STRATEGIES_images
  else
    CACHE_STRATEGIES_NETWORK_FIRST

/-- Outcome of the activate handler: the cache namespaces that remain and
whether `clients.claim()` was reached. -/
structure ActivateResult where
  cacheKeys : List String
  claimed : Bool
deriving DecidableEq, Repr

/-- The activate listener (source lines 52-72), parametrised by the current
namespace identity. All deletions are started at once by `map`, so each runs
to completion regardless of the others; a namespace other than the current
one survives exactly when its deletion rejected (`delOk` false). `Promise.all`
rejects as soon as one deletion rejects, in which case the `.then` running
`clients.claim()` is skipped, so `claimed` holds exactly when every deletion
resolved. The handler never creates a namespace. -/
def activateSweep (currentName : String) (cacheNames : List String)
    (delOk : String → Bool) : ActivateResult :=
  { cacheKeys := cacheNames.filter (fun n => n == currentName || !(delOk n)),
    claimed := cacheNames.all (fun n => n == currentName || delOk n) }

/-- Platform `cache.addAll(urls)` as the worker relies on it (source line
236): fetch every URL; if any fetch rejects, reject the whole batch with
that error, and if any fetched response has a non-ok (non-2xx) status,
reject the whole batch with the platform TypeError, whose message is
modelled as the fixed non-empty string Request failed; either way no
partial set is retained. Only when every response is ok is every fetched
response stored under its URL. -/
def addAll (cache : Cache) (urls : List String)
    (net : String → Except String Response) : Except String Cache :=
  match urls.findSome?
      (fun u => match net u with
        | Except.error e => some e
        | Except.ok r => if r.ok then none else some "Request failed") with
  | some e => Except.error e
  | none =>
    Except.ok (urls.foldl
      (fun c u => match net u with
        | Except.ok r => c.put u r
        | Except.error _ => c) cache)

/-- Reply posted on the message port by the CACHE_URLS handler. -/
structure Reply where
  success : Bool
  error : Option String
deriving DecidableEq, Repr

/-- The CACHE_URLS branch of the message listener (source lines 232-244):
open the current namespace, `addAll` the URL list, reply `success: true` on
resolution and `success: false` with the error message on rejection. -/
def handleCacheUrls (cache : Cache) (urls : List String)
    (net : String → Except String Response) : Cache × Reply :=
  match addAll cache urls net with
  | Except.ok c => (c, ⟨true, none⟩)
  | Except.error e => (cache, ⟨false, some e⟩)

/-- `handleRequest` (source lines 99-113): dispatch on the strategy
identifier; an unknown identifier falls through to a bare fetch. -/
def handleRequest (strategy : String) (cache : Cache)
    (net : Except String Response) (key : String) : FetchResult :=
  if strategy = CACHE_STRATEGIES_CACHE_FIRST then cacheFirst cache net key
  else if strategy = CACHE_STRATEGIES_NETWORK_FIRST then
    networkFirst cache net key
  else if strategy = CACHE_STRATEGIES_STALE_WHILE_REVALIDATE then
    staleWhileRevalidate cache net key
  else
    match net with
    | Except.ok r => ⟨some r, cache, true⟩
    | Except.error _ => ⟨none, cache, true⟩

-- Basic lemmas about the cache store.

theorem Cache.matchReq_put_self (c : Cache) (key : String) (r : Response) :
    (c.put key r).matchReq key = some r := by
  simp [Cache.put, Cache.matchReq, List.find?]

theorem Cache.find?_filter_ne (c : Cache) (key other : String)
    (h : other ≠ key) :
    (c.filter (fun kv => kv.1 != key)).find? (fun kv => kv.1 == other) =
      c.find? (fun kv => kv.1 == other) := by
  induction c with
  | nil => rfl
  | cons hd tl ih =>
    by_cases hhd : hd.1 = key
    · simp [List.filter_cons, List.find?_cons, hhd, Ne.symm h, ih]
    · by_cases hother : hd.1 = other
      · simp [List.filter_cons, List.find?_cons, hhd, hother, h]
      · simp [List.filter_cons, List.find?_cons, hhd, hother, ih]

theorem Cache.matchReq_put_other (c : Cache) (key other : String)
    (r : Response) (h : other ≠ key) :
    (c.put key r).matchReq other = c.matchReq other := by
  have hne : (key == other) = false := by simp [Ne.symm h]
  simp [Cache.put, Cache.matchReq, List.find?, hne,
    Cache.find?_filter_ne c key other h]

-- Sample responses used by the concrete witness instances below.

/-- A 200 response, as a concrete witness value. -/
def sampleOk : Response :=
  { status := 200, statusText := "OK", headers := [], body := "fresh" }

/-- A non-ok 404 response, as a concrete witness value. -/
def sampleNotFound : Response :=
  { status := 404, statusText := "Not Found", headers := [], body := "missing" }

/-- A cached snapshot with body v1.js, as a concrete witness value. -/
def cachedV1 : Response :=
  { status := 200, statusText := "OK", headers := [], body := "v1.js" }

/-- A fresh snapshot with body v2.js, as a concrete witness value. -/
def freshV2 : Response :=
  { status := 200, statusText := "OK", headers := [], body := "v2.js" }

/-- Claim C7: for every cache-first request whose key has an entry in the
current namespace, that entry is returned unconditionally, the namespace is
untouched, and no network call is made, whatever the network would have
answered. -/
theorem cacheFirst_hit_no_network (cache : Cache) (key : String)
    (cached : Response) (h : cache.matchReq key = some cached) :
    ∀ net : Except String Response,
      cacheFirst cache net key = ⟨some cached, cache, false⟩ := by
  intro net
  simp [cacheFirst, h]

/-- Witness for C7 at a concrete one-entry cache and a failing network. -/
theorem cacheFirst_hit_no_network_witness :
    cacheFirst [("/img.png", cachedV1)] (Except.error "offline") "/img.png" =
      ⟨some cachedV1, [("/img.png", cachedV1)], false⟩ :=
  cacheFirst_hit_no_network [("/img.png", cachedV1)] "/img.png" cachedV1
    (by decide) (Except.error "offline")

/-- Claim C8: for every network-first request whose fetch rejects, the
executor answers with the cached entry when one exists and otherwise with the
synthetic offline response, which carries status 503 Service Unavailable and
an HTML content type; the caller always receives a response, never the
network error. -/
theorem networkFirst_failure_fallback (cache : Cache) (key e : String) :
    (networkFirst cache (Except.error e) key).response =
      some ((cache.matchReq key).getD offlineHtmlResponse) ∧
    offlineHtmlResponse.status = 503 ∧
    offlineHtmlResponse.statusText = "Service Unavailable" ∧
    offlineHtmlResponse.headers = [("Content-Type", "text/html")] := by
  refine ⟨?_, rfl, rfl, rfl⟩
  cases h : cache.matchReq key <;> simp [networkFirst, h]

/-- Claim C5: for every stale-while-revalidate request with a cached entry,
the cached entry is answered whatever the concurrent fetch does (the answer
never waits on the fetch outcome), and a successful ok fetch overwrites the
entry, so a subsequent cache read of that key returns the new snapshot. -/
theorem swr_cached_immediate_then_revalidate (cache : Cache) (key : String)
    (cached : Response) (h : cache.matchReq key = some cached) :
    (∀ net : Except String Response,
      (staleWhileRevalidate cache net key).response = some cached) ∧
    (∀ r : Response, r.ok = true →
      (staleWhileRevalidate cache (Except.ok r) key).cache.matchReq key =
        some r ∧
      ∀ net2 : Except String Response,
        (cacheFirst ((staleWhileRevalidate cache (Except.ok r) key).cache)
          net2 key).response = some r) := by
  constructor
  · intro net
    cases net <;> simp [staleWhileRevalidate, h]
  · intro r hr
    have hput : (staleWhileRevalidate cache (Except.ok r) key).cache =
        cache.put key r := by
      simp [staleWhileRevalidate, h, hr]
    refine ⟨?_, ?_⟩
    · rw [hput]; exact Cache.matchReq_put_self cache key r
    · intro net2
      rw [hput]
      simp [cacheFirst, Cache.matchReq_put_self cache key r]

/-- Witness for C5: cached v1.js is answered while the fetched v2.js
replaces it in the namespace. -/
theorem swr_cached_immediate_then_revalidate_witness :
    (staleWhileRevalidate [("/app.js", cachedV1)] (Except.ok freshV2)
        "/app.js").response = some cachedV1 ∧
    (staleWhileRevalidate [("/app.js", cachedV1)] (Except.ok freshV2)
        "/app.js").cache.matchReq "/app.js" = some freshV2 := by
  have h := swr_cached_immediate_then_revalidate [("/app.js", cachedV1)]
    "/app.js" cachedV1 (by decide)
  exact ⟨h.1 (Except.ok freshV2), (h.2 freshV2 (by decide)).1⟩

/-- Claim C6: for every stale-while-revalidate request with no cached entry,
the caller receives the outcome of the background fetch: the live response
when it resolves, and on a rejected fetch a promise resolved with
`undefined` (the rejection is swallowed by the catch handler), which the
host environment surfaces to the page as a network failure. -/
theorem swr_miss_network_outcome (cache : Cache) (key : String)
    (h : cache.matchReq key = none) :
    (∀ r : Response,
      (staleWhileRevalidate cache (Except.ok r) key).response = some r) ∧
    (∀ e : String,
      (staleWhileRevalidate cache (Except.error e) key).response = none) := by
  constructor <;> intro x <;> simp [staleWhileRevalidate, h]

/-- Witness for C6 on the empty cache. -/
theorem swr_miss_network_outcome_witness :
    (staleWhileRevalidate [] (Except.ok freshV2) "/app.js").response =
      some freshV2 ∧
    (staleWhileRevalidate [] (Except.error "offline") "/app.js").response =
      none := by
  have h := swr_miss_network_outcome [] "/app.js" (by decide)
  exact ⟨h.1 freshV2, h.2 "offline"⟩

/-- Claim C1: in every executor a fetched response is stored under the
request key exactly when the fetch resolved with an ok (2xx) response, the
stored entry then being the response snapshot; otherwise the entry for that
key is unchanged. For cache-first the fetch only happens on a cache miss, so
the statement is conditioned on one. -/
theorem executors_cache_iff_ok (cache : Cache) (key : String)
    (net : Except String Response) :
    (cache.matchReq key = none →
      (cacheFirst cache net key).cache.matchReq key =
        (match net with
          | Except.ok r => if r.ok then some r else none
          | Except.error _ => none)) ∧
    ((networkFirst cache net key).cache.matchReq key =
      (match net with
        | Except.ok r => if r.ok then some r else cache.matchReq key
        | Except.error _ => cache.matchReq key)) ∧
    ((staleWhileRevalidate cache net key).cache.matchReq key =
      (match net with
        | Except.ok r => if r.ok then some r else cache.matchReq key
        | Except.error _ => cache.matchReq key)) := by
  refine ⟨?_, ?_, ?_⟩
  · intro h
    cases net with
    | ok r =>
      by_cases hr : r.ok = true <;>
        simp [cacheFirst, h, hr, Cache.matchReq_put_self]
    | error e => simp [cacheFirst, h]
  · cases net with
    | ok r =>
      by_cases hr : r.ok = true <;>
        simp [networkFirst, hr, Cache.matchReq_put_self]
    | error e =>
      cases h : cache.matchReq key <;> simp [networkFirst, h]
  · cases net with
    | ok r =>
      by_cases hr : r.ok = true <;>
        cases h : cache.matchReq key <;>
        simp [staleWhileRevalidate, h, hr, Cache.matchReq_put_self]
    | error e =>
      cases h : cache.matchReq key <;> simp [staleWhileRevalidate, h]

/-- Witness for C1: an ok response is stored, a 404 and a rejection are
not. -/
theorem executors_cache_iff_ok_witness :
    (cacheFirst [] (Except.ok sampleOk) "/k").cache.matchReq "/k" =
      some sampleOk ∧
    (networkFirst [] (Except.ok sampleNotFound) "/k").cache.matchReq "/k" =
      none ∧
    (staleWhileRevalidate [] (Except.error "down") "/k").cache.matchReq "/k" =
      none := by
  have h1 := (executors_cache_iff_ok [] "/k" (Except.ok sampleOk)).1 rfl
  have h2 := (executors_cache_iff_ok [] "/k" (Except.ok sampleNotFound)).2.1
  have h3 := (executors_cache_iff_ok [] "/k" (Except.error "down")).2.2
  exact ⟨h1.trans (by decide), h2.trans (by decide), h3.trans (by decide)⟩

-- Lemmas about the dot-split extension extraction.

theorem splitDot_ne_nil (l : List Char) : splitDot l ≠ [] := by
  induction l with
  | nil => simp [splitDot]
  | cons c cs ih =>
    unfold splitDot
    cases h : splitDot cs with
    | nil => simp
    | cons piece rest => by_cases hc : c = '.' <;> simp [hc]

theorem splitDot_no_dot (l : List Char) (h : '.' ∉ l) : splitDot l = [l] := by
  induction l with
  | nil => rfl
  | cons c cs ih =>
    have hc : c ≠ '.' := fun hcc => h (hcc ▸ List.mem_cons_self c cs)
    have hcs : '.' ∉ cs := fun hm => h (List.mem_cons_of_mem c hm)
    unfold splitDot
    rw [ih hcs]
    simp [hc]

theorem getLastD_irrel {α : Type} (l : List α) (a b : α) (h : l ≠ []) :
    l.getLastD a = l.getLastD b := by
  cases l with
  | nil => exact absurd rfl h
  | cons x xs => rw [List.getLastD_cons, List.getLastD_cons]

theorem splitDot_cons (c : Char) (cs : List Char) :
    splitDot (c :: cs) =
      match splitDot cs with
      | [] => [[]]
      | piece :: rest =>
        if c = '.' then [] :: piece :: rest else (c :: piece) :: rest := rfl

theorem two_le_splitDot_length (a b : List Char) :
    2 ≤ (splitDot (a ++ '.' :: b)).length := by
  induction a with
  | nil =>
    rw [List.nil_append, splitDot_cons]
    cases h : splitDot b with
    | nil => exact absurd h (splitDot_ne_nil b)
    | cons piece rest =>
      simp
  | cons c a ih =>
    rw [List.cons_append, splitDot_cons]
    cases h : splitDot (a ++ '.' :: b) with
    | nil => exact absurd h (splitDot_ne_nil _)
    | cons piece rest =>
      show 2 ≤ (if c = '.' then [] :: piece :: rest
        else (c :: piece) :: rest).length
      by_cases hc : c = '.'
      · rw [if_pos hc]
        simp
      · rw [if_neg hc]
        rw [h] at ih
        simp only [List.length_cons] at ih ⊢
        omega

theorem splitDot_getLastD_append (a b : List Char) :
    (splitDot (a ++ '.' :: b)).getLastD [] = (splitDot b).getLastD [] := by
  induction a with
  | nil =>
    rw [List.nil_append, splitDot_cons]
    cases h : splitDot b with
    | nil => exact absurd h (splitDot_ne_nil b)
    | cons piece rest =>
      show ([] :: piece :: rest).getLastD [] = (piece :: rest).getLastD []
      rw [List.getLastD_cons]
  | cons c a ih =>
    rw [List.cons_append, splitDot_cons]
    cases h : splitDot (a ++ '.' :: b) with
    | nil => exact absurd h (splitDot_ne_nil _)
    | cons piece rest =>
      have hrest : rest ≠ [] := by
        have hl := two_le_splitDot_length a b
        rw [h] at hl
        simp only [List.length_cons] at hl
        intro hr
        rw [hr] at hl
        simp at hl
      rw [h] at ih
      show (if c = '.' then [] :: piece :: rest
        else (c :: piece) :: rest).getLastD [] = (splitDot b).getLastD []
      by_cases hc : c = '.'
      · rw [if_pos hc, List.getLastD_cons]
        exact ih
      · rw [if_neg hc, List.getLastD_cons,
          getLastD_irrel rest (c :: piece) piece hrest]
        rw [List.getLastD_cons] at ih
        exact ih

theorem extOf_no_dot (p : String) (h : '.' ∉ p.data) : extOf p = p := by
  unfold extOf
  rw [splitDot_no_dot p.data h]
  rfl

theorem extOf_after_last_dot (a b : List Char) (hb : '.' ∉ b) :
    extOf ⟨a ++ '.' :: b⟩ = ⟨b⟩ := by
  unfold extOf
  show (⟨(splitDot (a ++ '.' :: b)).getLastD []⟩ : String) = ⟨b⟩
  rw [splitDot_getLastD_append a b, splitDot_no_dot b hb]
  rfl

theorem getStrategy_default_of_unknown_ext (accept : Option String)
    (p : String) (ha : acceptIndicatesHtml accept = false)
    (hext : extOf p ∉
      ["html", "css", "js", "jpg", "jpeg", "png", "gif", "webp", "svg"]) :
    getStrategyForRequest accept p = CACHE_STRATEGIES_NETWORK_FIRST := by
  simp only [List.mem_cons, List.not_mem_nil, or_false, not_or] at hext
  obtain ⟨h1, h2, h3, h4, h5, h6, h7, h8, h9⟩ := hext
  simp [getStrategyForRequest, ha, h1, h2, h3, h4, h5, h6, h7, h8, h9]

/-- Claim C2: the strategy classifier is a pure function of the Accept
header and URL pathname yielding exactly one of the three identifiers, by
the priority cascade: Accept indicating HTML or extension html gives
network-first; else css gives stale-while-revalidate; else js gives
stale-while-revalidate; else an extension in the fixed image set gives
cache-first; anything else falls back to network-first. -/
theorem getStrategy_cascade (accept : Option String) (p : String) :
    (acceptIndicatesHtml accept = true ∨ extOf p = "html" →
      getStrategyForRequest accept p = CACHE_STRATEGIES_NETWORK_FIRST) ∧
    (acceptIndicatesHtml accept = false → extOf p = "css" →
      getStrategyForRequest accept p =
        CACHE_STRATEGIES_STALE_WHILE_REVALIDATE) ∧
    (acceptIndicatesHtml accept = false → extOf p = "js" →
      getStrategyForRequest accept p =
        CACHE_STRATEGIES_STALE_WHILE_REVALIDATE) ∧
    (acceptIndicatesHtml accept = false →
      extOf p ∈ ["jpg", "jpeg", "png", "gif", "webp", "svg"] →
      getStrategyForRequest accept p = CACHE_STRATEGIES_CACHE_FIRST) ∧
    (acceptIndicatesHtml accept = false →
      extOf p ∉ ["html", "css", "js", "jpg", "jpeg", "png", "gif", "webp",
        "svg"] →
      getStrategyForRequest accept p = CACHE_STRATEGIES_NETWORK_FIRST) ∧
    (getStrategyForRequest accept p = CACHE_STRATEGIES_CACHE_FIRST ∨
      getStrategyForRequest accept p = CACHE_STRATEGIES_NETWORK_FIRST ∨
      getStrategyForRequest accept p =
        CACHE_STRATEGIES_STALE_WHILE_REVALIDATE) := by
  refine ⟨?_, ?_, ?_, ?_, ?_, ?_⟩
  · rintro (h | h) <;>
      simp [getStrategyForRequest, RESOURCE_STRATEGIES_html, h]
  · intro ha h
    simp [getStrategyForRequest, RESOURCE_STRATEGIES_styles, ha, h]
  · intro ha h
    simp [getStrategyForRequest, RESOURCE_STRATEGIES_scripts, ha, h]
  · intro ha hmem
    simp only [List.mem_cons, List.not_mem_nil, or_false] at hmem
    rcases hmem with h | h | h | h | h | h <;>
      simp [getStrategyForRequest, RESOURCE_STRATEGIES_images, ha, h]
  · exact getStrategy_default_of_unknown_ext accept p
  · simp only [getStrategyForRequest]
    split_ifs <;>
      simp [RESOURCE_STRATEGIES_html, RESOURCE_STRATEGIES_styles,
        RESOURCE_STRATEGIES_scripts, RESOURCE_STRATEGIES_images]

/-- Witness for C2: one request per rule of the cascade. -/
theorem getStrategy_cascade_witness :
    getStrategyForRequest (some "text/html,application/xhtml+xml") "/page" =
      CACHE_STRATEGIES_NETWORK_FIRST ∧
    getStrategyForRequest none "/main.css" =
      CACHE_STRATEGIES_STALE_WHILE_REVALIDATE ∧
    getStrategyForRequest none "/app.js" =
      CACHE_STRATEGIES_STALE_WHILE_REVALIDATE ∧
    getStrategyForRequest none "/logo.png" = CACHE_STRATEGIES_CACHE_FIRST ∧
    getStrategyForRequest none "/data.json" =
      CACHE_STRATEGIES_NETWORK_FIRST := by
  refine ⟨?_, ?_, ?_, ?_, ?_⟩
  · exact (getStrategy_cascade (some "text/html,application/xhtml+xml")
      "/page").1 (Or.inl (by decide))
  · exact (getStrategy_cascade none "/main.css").2.1 rfl (by decide)
  · exact (getStrategy_cascade none "/app.js").2.2.1 rfl (by decide)
  · exact (getStrategy_cascade none "/logo.png").2.2.2.1 rfl (by decide)
  · exact (getStrategy_cascade none "/data.json").2.2.2.2.1 rfl (by decide)

/-- Claim C10: the extension is the piece of the pathname after the last
dot, compared case-sensitively, and a pathname without a dot is its own
extension; consequently upper-case extensions such as .CSS and .PNG, and
extensionless slash-leading paths, classify as network-first whenever the
Accept header does not contain text/html. -/
theorem extension_derivation_case_sensitive :
    (∀ p : String, '.' ∉ p.data → extOf p = p) ∧
    (∀ a b : List Char, '.' ∉ b → extOf ⟨a ++ '.' :: b⟩ = ⟨b⟩) ∧
    (∀ (accept : Option String) (p : String),
      acceptIndicatesHtml accept = false →
      extOf p ∉ ["html", "css", "js", "jpg", "jpeg", "png", "gif", "webp",
        "svg"] →
      getStrategyForRequest accept p = CACHE_STRATEGIES_NETWORK_FIRST) ∧
    (∀ (accept : Option String) (p : String),
      p.data.head? = some '/' → '.' ∉ p.data →
      acceptIndicatesHtml accept = false →
      getStrategyForRequest accept p = CACHE_STRATEGIES_NETWORK_FIRST) ∧
    getStrategyForRequest none "/style.CSS" =
      CACHE_STRATEGIES_NETWORK_FIRST ∧
    getStrategyForRequest none "/image.PNG" =
      CACHE_STRATEGIES_NETWORK_FIRST := by
  refine ⟨extOf_no_dot, extOf_after_last_dot, ?_, ?_, ?_, ?_⟩
  · exact getStrategy_default_of_unknown_ext
  · intro accept p hslash hdot ha
    apply getStrategy_default_of_unknown_ext accept p ha
    rw [extOf_no_dot p hdot]
    intro hmem
    simp only [List.mem_cons, List.not_mem_nil, or_false] at hmem
    rcases hmem with rfl | rfl | rfl | rfl | rfl | rfl | rfl | rfl | rfl <;>
      exact absurd hslash (by decide)
  · decide
  · decide

/-- Claim C3 counterexample: with one stale namespace whose deletion
rejects, `Promise.all` rejects and the `.then` running `clients.claim()` is
skipped, so the claim step does not occur even though the sweep has
resolved; the claim as stated (activation completes including
client-claiming, successfully or not) is false. -/
theorem activate_claim_skipped_counterexample :
    (activateSweep CACHE_NAME ["ts-snippets-v0.9.0", CACHE_NAME]
      (fun n => n == CACHE_NAME)).claimed = false := by decide

/-- Claim C3 amended: the deletions are started together and run
independently, so a stale namespace whose own deletion resolves is removed
even when another deletion rejects; but `clients.claim()` runs exactly when
every individual deletion resolved, a single rejection skipping it. -/
theorem activate_deletions_independent (currentName : String)
    (cacheNames : List String) (delOk : String → Bool) (m : String)
    (_hm : m ∈ cacheNames) (hne : m ≠ currentName) (hdel : delOk m = true) :
    m ∉ (activateSweep currentName cacheNames delOk).cacheKeys ∧
    ((activateSweep currentName cacheNames delOk).claimed = true ↔
      ∀ n ∈ cacheNames, n ≠ currentName → delOk n = true) := by
  constructor
  · simp [activateSweep, List.mem_filter, hne, hdel]
  · simp only [activateSweep, List.all_eq_true]
    constructor
    · intro h n hn hcur
      have := h n hn
      simpa [hcur] using this
    · intro h n hn
      by_cases hc : n = currentName
      · simp [hc]
      · simp [hc, h n hn hc]

/-- Witness for C3 amended: the stale namespace old-a is deleted although
the deletion of old-b rejects, and claiming is skipped. -/
theorem activate_deletions_independent_witness :
    "old-a" ∉ (activateSweep CACHE_NAME ["old-a", CACHE_NAME, "old-b"]
      (fun n => n == "old-a" || n == CACHE_NAME)).cacheKeys ∧
    ((activateSweep CACHE_NAME ["old-a", CACHE_NAME, "old-b"]
        (fun n => n == "old-a" || n == CACHE_NAME)).claimed = true ↔
      ∀ n ∈ ["old-a", CACHE_NAME, "old-b"], n ≠ CACHE_NAME →
        (n == "old-a" || n == CACHE_NAME) = true) :=
  activate_deletions_independent CACHE_NAME ["old-a", CACHE_NAME, "old-b"]
    (fun n => n == "old-a" || n == CACHE_NAME) "old-a"
    (by decide) (by decide) (by decide)

/-- Claim C4 counterexample (the activation round-trip of the spec): with
only namespace ts-snippets-v1 existing, activating with target identity
ts-snippets-v2 deletes v1 but does not create v2 - the handler never opens
the current namespace - so v2 is absent after activation although the claim
says it is present. -/
theorem activate_no_create_counterexample :
    "ts-snippets-v1" ∉ (activateSweep "ts-snippets-v2" ["ts-snippets-v1"]
      (fun _ => true)).cacheKeys ∧
    "ts-snippets-v2" ∉ (activateSweep "ts-snippets-v2" ["ts-snippets-v1"]
      (fun _ => true)).cacheKeys := by decide

/-- Claim C4 amended: after the activation handler completes with all
deletions succeeding, every surviving namespace is the current identity,
the current namespace is present exactly when it already existed before
activation (the handler deletes namespaces but never creates one), and all
open clients are claimed. -/
theorem activate_sweep_keeps_only_current (currentName : String)
    (cacheNames : List String) (delOk : String → Bool)
    (hall : ∀ n, delOk n = true) :
    (∀ n ∈ (activateSweep currentName cacheNames delOk).cacheKeys,
      n = currentName) ∧
    (currentName ∈ (activateSweep currentName cacheNames delOk).cacheKeys ↔
      currentName ∈ cacheNames) ∧
    (activateSweep currentName cacheNames delOk).claimed = true := by
  refine ⟨?_, ?_, ?_⟩
  · intro n hn
    simp [activateSweep, List.mem_filter, hall] at hn
    exact hn.2
  · simp [activateSweep, List.mem_filter, hall]
  · simp [activateSweep, List.all_eq_true, hall]

/-- Witness for C4 amended: sweeping from the previous version leaves only
the current namespace and claims clients. -/
theorem activate_sweep_keeps_only_current_witness :
    (∀ n ∈ (activateSweep CACHE_NAME ["ts-snippets-v0.9.0", CACHE_NAME]
      (fun _ => true)).cacheKeys, n = CACHE_NAME) ∧
    (CACHE_NAME ∈ (activateSweep CACHE_NAME ["ts-snippets-v0.9.0", CACHE_NAME]
        (fun _ => true)).cacheKeys ↔
      CACHE_NAME ∈ ["ts-snippets-v0.9.0", CACHE_NAME]) ∧
    (activateSweep CACHE_NAME ["ts-snippets-v0.9.0", CACHE_NAME]
      (fun _ => true)).claimed = true :=
  activate_sweep_keeps_only_current CACHE_NAME
    ["ts-snippets-v0.9.0", CACHE_NAME] (fun _ => true) (fun _ => rfl)

-- Lemmas about the bulk-precache fold.

theorem foldl_addAll_not_mem (net : String → Except String Response)
    (urls : List String) (cache : Cache) (u : String) (hu : u ∉ urls) :
    (urls.foldl (fun c v =>
      match net v with
      | Except.ok r => c.put v r
      | Except.error _ => c) cache).matchReq u = cache.matchReq u := by
  induction urls generalizing cache with
  | nil => rfl
  | cons v rest ih =>
    have hv : u ≠ v := fun h => hu (h ▸ List.mem_cons_self v rest)
    have hrest : u ∉ rest := fun h => hu (List.mem_cons_of_mem v h)
    rw [List.foldl_cons, ih _ hrest]
    cases hnet : net v with
    | ok r => exact Cache.matchReq_put_other cache v u r hv
    | error e => rfl

theorem foldl_addAll_mem (net : String → Except String Response)
    (urls : List String) (cache : Cache) (u : String) (r : Response)
    (hu : u ∈ urls) (hr : net u = Except.ok r) :
    (urls.foldl (fun c v =>
      match net v with
      | Except.ok r => c.put v r
      | Except.error _ => c) cache).matchReq u = some r := by
  induction urls generalizing cache with
  | nil => exact absurd hu (List.not_mem_nil u)
  | cons v rest ih =>
    rw [List.foldl_cons]
    by_cases hrest : u ∈ rest
    · exact ih _ hrest
    · have hv : u = v := by
        rcases List.mem_cons.mp hu with h | h
        · exact h
        · exact absurd h hrest
      subst hv
      rw [hr, foldl_addAll_not_mem net rest _ u hrest]
      exact Cache.matchReq_put_self cache u r

/-- Claim C9 counterexample: a single listed URL whose fetch resolves with
a 404 refutes the claim as stated - every listed URL fetch succeeds, yet
the platform addAll rejects the non-ok response, so nothing is stored and
the handler posts success false instead of the claimed success true. -/
theorem cacheUrls_nonok_counterexample :
    (handleCacheUrls [] ["/a"]
      (fun _ => Except.ok sampleNotFound)).2.success = false ∧
    (handleCacheUrls [] ["/a"]
      (fun _ => Except.ok sampleNotFound)).1.matchReq "/a" = none := by decide

/-- Claim C9 amended: for a CACHE_URLS command, when every listed URL fetch
resolves with an ok (2xx) response, every URL is stored in the current
namespace under its own key and the reply is success true; when any single
fetch rejects or resolves with a non-ok response, the whole batch is
rejected - the namespace keeps its prior contents - and the reply is
success false with a non-empty error message. -/
theorem cacheUrls_batch (cache : Cache) (urls : List String)
    (net : String → Except String Response)
    (hmsg : ∀ u e, net u = Except.error e → e ≠ "") :
    ((∀ u ∈ urls, ∃ r, net u = Except.ok r ∧ r.ok = true) →
      (handleCacheUrls cache urls net).2 = ⟨true, none⟩ ∧
      ∀ u ∈ urls, ∀ r, net u = Except.ok r →
        (handleCacheUrls cache urls net).1.matchReq u = some r) ∧
    ((∃ u ∈ urls, (∃ e, net u = Except.error e) ∨
        (∃ r, net u = Except.ok r ∧ r.ok = false)) →
      (handleCacheUrls cache urls net).2.success = false ∧
      (∃ e, (handleCacheUrls cache urls net).2.error = some e ∧ e ≠ "") ∧
      (handleCacheUrls cache urls net).1 = cache) := by
  constructor
  · intro hok
    have hnone : urls.findSome?
        (fun u => match net u with
          | Except.error e => some e
          | Except.ok r => if r.ok then none
            else some "Request failed") = none := by
      rw [List.findSome?_eq_none_iff]
      intro u hu
      obtain ⟨r, hr, hrok⟩ := hok u hu
      rw [hr]
      simp [hrok]
    constructor
    · simp [handleCacheUrls, addAll, hnone]
    · intro u hu r hr
      have h1 : (handleCacheUrls cache urls net).1 =
          urls.foldl (fun c v =>
            match net v with
            | Except.ok r => c.put v r
            | Except.error _ => c) cache := by
        simp [handleCacheUrls, addAll, hnone]
      rw [h1]
      exact foldl_addAll_mem net urls cache u r hu hr
  · intro hfail
    have hsome : ∃ e, urls.findSome?
        (fun u => match net u with
          | Except.error e => some e
          | Except.ok r => if r.ok then none
            else some "Request failed") = some e := by
      rcases hfind : urls.findSome?
          (fun u => match net u with
            | Except.error e => some e
            | Except.ok r => if r.ok then none
              else some "Request failed") with _ | e
      · exfalso
        obtain ⟨u, hu, hcase⟩ := hfail
        have hfu := List.findSome?_eq_none_iff.mp hfind u hu
        rcases hcase with ⟨e, he⟩ | ⟨r, hr, hrok⟩
        · rw [he] at hfu
          simp at hfu
        · rw [hr] at hfu
          simp [hrok] at hfu
      · exact ⟨e, rfl⟩
    obtain ⟨e, he⟩ := hsome
    have hne : e ≠ "" := by
      obtain ⟨u, hu, hfu⟩ := List.exists_of_findSome?_eq_some he
      rcases hnet : net u with e2 | r
      · rw [hnet] at hfu
        simp at hfu
        subst hfu
        exact hmsg u _ hnet
      · rw [hnet] at hfu
        by_cases hok : r.ok = true
        · simp [hok] at hfu
        · simp [hok] at hfu
          subst hfu
          decide
    refine ⟨?_, ⟨e, ?_, hne⟩, ?_⟩ <;>
      simp [handleCacheUrls, addAll, he]

/-- Witness for C9 amended: a full success over two URLs with ok responses
and a batch with one of three URLs rejecting. -/
theorem cacheUrls_batch_witness :
    ((handleCacheUrls [] ["/a", "/b"]
        (fun _ => Except.ok sampleOk)).2 = ⟨true, none⟩ ∧
      (handleCacheUrls [] ["/a", "/b"]
        (fun _ => Except.ok sampleOk)).1.matchReq "/a" = some sampleOk) ∧
    ((handleCacheUrls [] ["/a", "/bad", "/c"]
        (fun u => if u = "/bad" then Except.error "fetch failed"
          else Except.ok sampleOk)).2.success = false ∧
      (∃ e, (handleCacheUrls [] ["/a", "/bad", "/c"]
        (fun u => if u = "/bad" then Except.error "fetch failed"
          else Except.ok sampleOk)).2.error = some e ∧ e ≠ "") ∧
      (handleCacheUrls [] ["/a", "/bad", "/c"]
        (fun u => if u = "/bad" then Except.error "fetch failed"
          else Except.ok sampleOk)).1 = []) := by
  constructor
  · have h := (cacheUrls_batch [] ["/a", "/b"] (fun _ => Except.ok sampleOk)
      (by intro u e he; simp at he)).1
      (by intro u hu; exact ⟨sampleOk, rfl, rfl⟩)
    exact ⟨h.1, h.2 "/a" (by decide) sampleOk rfl⟩
  · exact (cacheUrls_batch [] ["/a", "/bad", "/c"]
      (fun u => if u = "/bad" then Except.error "fetch failed"
        else Except.ok sampleOk)
      (by
        intro u e he
        by_cases hu : u = "/bad" <;> simp [hu] at he
        rw [← he]
        decide)).2
      ⟨"/bad", by decide, Or.inl ⟨"fetch failed", rfl⟩⟩

/-- Witness for C10: an extensionless path, a double-dotted path, and an
upper-case extension at concrete inputs. -/
theorem extension_derivation_case_sensitive_witness :
    extOf "/api/data" = "/api/data" ∧
    extOf ⟨"/x/tar".data ++ '.' :: "gz".data⟩ = ⟨"gz".data⟩ ∧
    getStrategyForRequest none "/logo.WEBP" =
      CACHE_STRATEGIES_NETWORK_FIRST ∧
    getStrategyForRequest (some "application/json") "/api/data" =
      CACHE_STRATEGIES_NETWORK_FIRST := by
  have h := extension_derivation_case_sensitive
  refine ⟨h.1 "/api/data" (by decide), h.2.1 "/x/tar".data "gz".data
    (by decide), ?_, h.2.2.2.1 (some "application/json") "/api/data"
    (by decide) (by decide) (by decide)⟩
  exact h.2.2.1 none "/logo.WEBP" (by decide) (by decide)
